import Mathlib

/-!
Shallow embedding of `virttest/qemu_storage_pool.py` (storage-pool /
volume management for QEMU) and proofs about it.

Modelling conventions:
* Python strings are Lean `String`s; the generated `uuid.uuid4()` is
  modelled as an externally supplied natural-number identifier.
* The Python `dict` / `defaultdict` `self.volumes` is modelled as an
  insertion-ordered association list `List (String × Vol)`; the
  `defaultdict(lambda: ['', '', ''])` get-or-insert behaviour is
  modelled explicitly by `dictGet`.
* The filesystem is modelled as the list of paths of existing regular
  files; `os.path.isfile` is membership, `os.remove` removes a path.
* Raising an exception is modelled with `Except`; an operation whose
  Python body cannot raise gets a plain (non-`Except`) result type.
* Python `float`s are IEEE binary64 doubles, modelled exactly: a float
  is the rational number it denotes, and every float operation in the
  size formatter (the `float(value)` conversion, the multiplication,
  the int-to-float conversion of the unit, the division) rounds its
  exact result to 53 significant bits, nearest with ties to even
  (`fl`); `'%.1f'` rounds the exact value of the resulting double to
  one decimal, nearest with ties to even, as C `printf` does.
-/

namespace QemuStoragePool

/-- Volume descriptor: the three-element list `['', '', '']` stored per
volume name (`path`, `url`, `json`) in `PoolBase.__init__`. -/
structure Vol where
  path : String
  url : String
  json : String
deriving DecidableEq

/-- Default value produced by `defaultdict(lambda: ['', '', ''])`. -/
def Vol.dflt : Vol := { path := "", url := "", json := "" }

/-- Exceptions raised by pool operations: `DirectoryPoolInactiveError`
(carrying pool name and function name), `PoolVolNotExistError` (carrying
pool name and volume name), and the Python builtin `NotImplementedError`
raised by unimplemented `PoolBase` methods. -/
inductive PoolException where
  | directoryPoolInactive (pool_name func_name : String)
  | poolVolNotExist (pool_name vol_name : String)
  | notImplemented
deriving DecidableEq

/-- Rendered message of `DirectoryPoolInactiveError.__str__` and
`PoolVolNotExistError.__str__`. -/
def PoolException.message : PoolException → String
  | .directoryPoolInactive pn fn =>
      "DirectoryPool " ++ pn ++ " is inactive, unable to call " ++ fn ++ "."
  | .poolVolNotExist pn vn =>
      "failed to get vol \x27" ++ vn ++ "\x27 in pool \x27" ++ pn ++ "\x27"
  | .notImplemented => ""

/-- Configuration errors from `DirectoryPool._parse_config`: the wrapped
`TypeError` is either a missing required argument or an unexpected
keyword argument of the internal `parser(path)` function. -/
inductive DirectoryPoolConfigErr where
  | missingPath
  | unexpectedKeyword (k : String)
deriving DecidableEq

/-- The `TypeError` text after `re.sub` replaced `parser()` with
`DirectoryPool` (CPython 3 wording). -/
def DirectoryPoolConfigErr.errMsg : DirectoryPoolConfigErr → String
  | .missingPath =>
      "DirectoryPool missing 1 required positional argument: \x27path\x27"
  | .unexpectedKeyword k =>
      "DirectoryPool got an unexpected keyword argument \x27" ++ k ++ "\x27"

/-- Rendered message of `DirectoryPoolConfigError.__str__`:
`"required field: path\nbut %s" % err_msg`. -/
def configErrorMessage (e : DirectoryPoolConfigErr) : String :=
  "required field: path\nbut " ++ e.errMsg

/-- The message `msg` names the parameter `param` (it contains it as a
substring, exhibited by an explicit decomposition). -/
def messageNames (msg param : String) : Prop :=
  ∃ pre post, msg = pre ++ (param ++ post)

/-- First-match lookup in an association list (Python `d[k]` /
`k in d` on a dict, whose keys are unique). -/
def dlookup {α : Type} (n : String) : List (String × α) → Option α
  | [] => none
  | (k, v) :: rest => if k = n then some v else dlookup n rest

/-- Get-or-insert of `defaultdict`: reading `d[n]` inserts the default
value when `n` is absent.  Returns the value read and the updated table. -/
def dictGet (n : String) : List (String × Vol) → Vol × List (String × Vol)
  | [] => (Vol.dflt, [(n, Vol.dflt)])
  | (k, v) :: rest =>
    if k = n then (v, (k, v) :: rest)
    else
      let r := dictGet n rest
      (r.1, (k, v) :: r.2)

/-- Item assignment `d[n][i] = x` on the `defaultdict`: mutate the entry
in place when present, otherwise insert the mutated default. -/
def dictUpdate (n : String) (f : Vol → Vol) : List (String × Vol) → List (String × Vol)
  | [] => [(n, f Vol.dflt)]
  | (k, v) :: rest =>
    if k = n then (k, f v) :: rest else (k, v) :: dictUpdate n f rest

/-- Deletion `del d[n]`: remove the entry for key `n`. -/
def dictDelete (n : String) (l : List (String × Vol)) : List (String × Vol) :=
  l.filter (fun kv => decide (kv.1 ≠ n))

/-- Number of entries stored under key `n`. -/
def countKey (n : String) (l : List (String × Vol)) : ℕ :=
  (l.filter (fun kv => kv.1 == n)).length

/-- Validated configuration of a `DirectoryPool`: `_parse_config`
guarantees the config dict is exactly `{"path": path}`. -/
structure DirConfig where
  path : String
deriving DecidableEq

/-- State of a `DirectoryPool` object (the fields of `PoolBase.__init__`
that the directory backend uses; `source_list` and `target_list` are
passed through unused and omitted). -/
structure DirectoryPool where
  name : String
  id : ℕ
  config : DirConfig
  active : Bool
  volumes : List (String × Vol)
deriving DecidableEq

/-- The `parser(**config)` trick of `DirectoryPool._parse_config`:
succeeds returning the value bound to `path` exactly when the keyword
set is `{"path"}`; an unexpected keyword is reported (first, as CPython
does) before a missing `path`. -/
def parseConfig (config : List (String × String)) : Except DirectoryPoolConfigErr String :=
  match config.find? (fun kv => !(kv.1 == "path")) with
  | some kv => .error (.unexpectedKeyword kv.1)
  | none =>
    match dlookup "path" config with
    | some v => .ok v
    | none => .error .missingPath

/-- Construction `DirectoryPool(name, config)`: validates the config via
`_parse_config` (raising `DirectoryPoolConfigError` on failure, so no
pool object exists), then initializes `active = False` and an empty
volume table.  The fresh `uuid.uuid4()` is supplied as `id`. -/
def mkDirectoryPool (name : String) (config : List (String × String)) (id : ℕ) :
    Except DirectoryPoolConfigErr DirectoryPool :=
  match parseConfig config with
  | .error e => .error e
  | .ok path =>
      .ok { name := name, id := id, config := { path := path },
            active := false, volumes := [] }

/-- Two-argument `os.path.join` (POSIX, separator `/`): if `b` starts
with the separator the result is `b`; else if `a` is empty or ends with
the separator the result is `a ++ b`; else the separator is inserted. -/
def joinPath (a b : String) : String :=
  if b.data.head? = some '/' then b
  else if a = "" ∨ a.data.getLast? = some '/' then a ++ b
  else a ++ "/" ++ b

/-- `DirectoryPool._format_vol_path`. -/
def formatVolPath (p : DirectoryPool) (vol_name : String) : String :=
  joinPath p.config.path vol_name

/-- `DirectoryPool._format_as_url`: `'file:%s' % path`. -/
def formatAsUrl (p : DirectoryPool) (vol_name : String) : String :=
  "file:" ++ formatVolPath p vol_name

/-- `DirectoryPool.json_template % (vol_format, vol_path)`. -/
def json_template (vol_format vol_path : String) : String :=
  "\x7b\"driver\": \"" ++ vol_format ++ "\", " ++
    "\"file\": \x7b\"driver\": \"file\", " ++
    "\"filename\": \"" ++ vol_path ++ "\"\x7d\x7d"

/-- `DirectoryPool._format_as_json`. -/
def formatAsJson (vol_path vol_format : String) : String :=
  json_template vol_format vol_path

/-- `DirectoryPool.is_pool_active`. -/
def is_pool_active (p : DirectoryPool) : Bool := p.active

/-- `DirectoryPool.is_volumes_existed`: `name in self.volumes` — a pure
membership test on the dict, which does not insert. -/
def is_volumes_existed (p : DirectoryPool) (name : String) : Bool :=
  (dlookup name p.volumes).isSome

/-- `DirectoryPool.create_volume(vol_name, vol_format)`.  The body makes
no filesystem call, so the filesystem is threaded through unchanged; the
Python method cannot raise, so the result is not `Except`.
For an active pool with the name already tracked it returns the stored
url; otherwise it computes the url mirroring the source, and persists
path, url and json only when the pool is active (the json is built from
the just-stored `volumes[vol_name][0]`, as in the source). -/
def createVolume (p : DirectoryPool) (fs : List String) (vol_name vol_format : String) :
    (DirectoryPool × List String) × String :=
  if is_pool_active p && is_volumes_existed p vol_name then
    ((p, fs), ((dlookup vol_name p.volumes).getD Vol.dflt).url)
  else
    let url := formatAsUrl p vol_name
    if is_pool_active p then
      let vols1 := dictUpdate vol_name
        (fun v => { v with path := formatVolPath p vol_name }) p.volumes
      let vols2 := dictUpdate vol_name
        (fun v => { v with url := formatAsUrl p vol_name }) vols1
      let storedPath := ((dlookup vol_name vols2).getD Vol.dflt).path
      let vols3 := dictUpdate vol_name
        (fun v => { v with json := formatAsJson storedPath vol_format }) vols2
      (({ p with volumes := vols3 }, fs), url)
    else ((p, fs), url)

/-- `DirectoryPool.get_vol_info(vol_name)` with the default
`verbose=False` (the verbose branch only adds `os.stat` detail to the
returned dict and changes neither the tracking table nor which inputs
raise).  `self.volumes[vol_name][0]` is a `defaultdict` read, so an
untracked name is inserted with the default entry before the check.  The
source guard `not (self.is_volumes_existed and os.path.isfile(path))`
tests the bound method object `self.is_volumes_existed`, which is always
truthy, so only the `isfile` test decides.  Returns the possibly updated
pool together with the result (`{'path': path}` is modelled by the path). -/
def getVolInfo (p : DirectoryPool) (fs : List String) (vol_name : String) :
    DirectoryPool × Except PoolException String :=
  let r := dictGet vol_name p.volumes
  let p' := { p with volumes := r.2 }
  if r.1.path ∈ fs then (p', .ok r.1.path)
  else (p', .error (.poolVolNotExist p.name vol_name))

/-- Loop body of `DirectoryPool.pool_list_vols`: fold `get_vol_info`
over the listed names, threading the pool state and propagating the
first exception. -/
def poolListVolsGo (fs : List String) :
    DirectoryPool → List String →
      DirectoryPool × Except PoolException (List (String × String))
  | p, [] => (p, .ok [])
  | p, n :: rest =>
    match getVolInfo p fs n with
    | (p', .error e) => (p', .error e)
    | (p', .ok info) =>
      match poolListVolsGo fs p' rest with
      | (p'', .error e) => (p'', .error e)
      | (p'', .ok acc) => (p'', .ok ((n, info) :: acc))

/-- `DirectoryPool.pool_list_vols` (default flags): maps `get_vol_info`
over every tracked volume name. -/
def pool_list_vols (p : DirectoryPool) (fs : List String) :
    DirectoryPool × Except PoolException (List (String × String)) :=
  poolListVolsGo fs p (p.volumes.map Prod.fst)

/-- `DirectoryPool.delete_volume(vol_name)`: inactive-pool check first,
then the tracking check, then removal of the backing file when it exists
and unconditional removal of the tracked entry. -/
def deleteVolume (p : DirectoryPool) (fs : List String) (vol_name : String) :
    Except PoolException (DirectoryPool × List String) :=
  if !(is_pool_active p) then
    .error (.directoryPoolInactive p.name "delete_volume")
  else if (dlookup vol_name p.volumes).isNone then
    .error (.poolVolNotExist p.name vol_name)
  else
    let vol_path := ((dlookup vol_name p.volumes).getD Vol.dflt).path
    let fs' := if vol_path ∈ fs then fs.filter (fun q => decide (q ≠ vol_path)) else fs
    .ok ({ p with volumes := dictDelete vol_name p.volumes }, fs')

/-- `DirectoryPool.clone_volume(source_vol, dest_vol)`: the body checks
that the pool is active and then ends; no copy and no registration
happen (the arguments are otherwise unused). -/
def cloneVolume (p : DirectoryPool) (fs : List String) (_source_vol _dest_vol : String) :
    Except PoolException (DirectoryPool × List String) :=
  if !(is_pool_active p) then
    .error (.directoryPoolInactive p.name "clone_volume")
  else .ok (p, fs)

/-- `pool_destroy` on a `DirectoryPool`: the directory backend does not
override it, so the inherited `PoolBase.pool_destroy` runs and raises
`NotImplementedError` before touching any state. -/
def pool_destroy (_p : DirectoryPool) : Except PoolException DirectoryPool :=
  .error .notImplemented

/-- Suffix table `suffixes['decimal']` of `format_size_human_readable`. -/
def suffixesDecimal : List String :=
  ["B", "kB", "MB", "GB", "TB", "PB", "EB", "ZB", "YB"]

/-- Suffix table `suffixes['binary']` of `format_size_human_readable`. -/
def suffixesBinary : List String :=
  ["B", "KiB", "MiB", "GiB", "TiB", "PiB", "EiB", "ZiB", "YiB"]

/-- Fueled floor of the base-two logarithm: the recursion halves the
argument while it is at least two, so any fuel of at least that many
steps gives the exact value. -/
def natLog2Aux : ℕ → ℕ → ℕ
  | n, fuel + 1 => if 2 ≤ n then natLog2Aux (n / 2) fuel + 1 else 0
  | _, 0 => 0

/-- Floor of the base-two logarithm of a positive natural (zero at
zero); the argument itself always is enough fuel. -/
def natLog2 (n : ℕ) : ℕ := natLog2Aux n n

/-- Floor of the base-two logarithm of the positive rational `a / b`:
the difference of the integer logarithms is off by at most one, and an
exact cross-multiplied comparison decides the correction. -/
def ilog2nat (a b : ℕ) : ℤ :=
  let k : ℤ := (natLog2 a : ℤ) - (natLog2 b : ℤ)
  if (if 0 ≤ k then 2 ^ k.toNat * b ≤ a else b ≤ a * 2 ^ (-k).toNat) then k else k - 1

/-- Round the integer ratio `n / d` (`d` positive) to the nearest
integer, ties to even — the tie-breaking rule both of IEEE binary64
operations and of C `printf` decimal conversion. -/
def roundHalfEvenInt (n d : ℤ) : ℤ :=
  let f := Int.ediv n d
  let r := n - f * d
  if 2 * r < d then f
  else if d < 2 * r then f + 1
  else if f % 2 = 0 then f else f + 1

/-- Round the positive rational `a / b` to the nearest IEEE binary64
value (53-bit significand, round to nearest, ties to even).  The
exponent is chosen so the scaled significand lies in `[2^52, 2^53)`,
that significand is rounded half-to-even, and the result is rebuilt as
an exact rational.  Exponent overflow and subnormals are not modelled;
the program's magnitudes never reach them. -/
def flMag (a b : ℕ) : ℚ :=
  let e : ℤ := ilog2nat a b - 52
  let nn : ℕ := a * (if e ≤ 0 then 2 ^ (-e).toNat else 1)
  let dd : ℕ := b * (if e ≤ 0 then 1 else 2 ^ e.toNat)
  let r : ℤ := roundHalfEvenInt (nn : ℤ) (dd : ℤ)
  if 0 ≤ e then mkRat (r * 2 ^ e.toNat) 1 else mkRat r (2 ^ (-e).toNat)

/-- The IEEE binary64 double nearest to a rational, represented by the
exact rational value that double denotes.  Every Python float is such a
value, and every float operation rounds its exact result through this
function. -/
def fl (q : ℚ) : ℚ :=
  if q.num = 0 then 0
  else if 0 < q.num then flMag q.num.toNat q.den
  else -(flMag (-q.num).toNat q.den)

/-- Exact product of a rational and a natural number, assembled from
numerator and denominator (Python `float * int` converts the small
`int` exactly and rounds this exact product through `fl`). -/
def ratMulNat (q : ℚ) (n : ℕ) : ℚ := mkRat (q.num * n) q.den

/-- Exact quotient of two rationals, assembled from numerators and
denominators; division by zero yields zero as for `(· / ·)` on `ℚ`
(IEEE division rounds this exact quotient through `fl`). -/
def ratDiv (a b : ℚ) : ℚ :=
  if 0 ≤ b.num then mkRat (a.num * (b.den : ℤ)) (a.den * b.num.toNat)
  else mkRat (-(a.num * (b.den : ℤ))) (a.den * (-b.num).toNat)

/-- The `for i, s in enumerate(suffix)` loop with its `break`: starting
at index `i` with `fuel` further indices available, return the first
index whose unit `base ^ (i + 1)` exceeds the float `v0` (CPython
compares a `float` to an `int` exactly, so the comparison is the exact
rational one), or the last visited index when the loop runs out. -/
def chooseIdxAux (v0 : ℚ) (base : ℕ) : ℕ → ℕ → ℕ
  | i, 0 => i
  | i, fuel + 1 =>
    if v0 < ((base ^ (i + 1) : ℕ) : ℚ) then i
    else chooseIdxAux v0 base (i + 1) fuel

/-- Index of the unit the loop of `format_size_human_readable` stops at
for a nine-entry suffix table. -/
def chooseIdx (v0 : ℚ) (base : ℕ) : ℕ := chooseIdxAux v0 base 0 8

/-- Round `10 * num / den` to the nearest integer, ties to even,
computed on the numerator and denominator. -/
def roundTenthsHalfEven (num den : ℤ) : ℤ :=
  roundHalfEvenInt (10 * num) den

/-- Rendering `'%.1f' % v` for the nonnegative double `v` (given as the
exact rational that double denotes): C rounds the exact binary value of
the double to one decimal, nearest with ties to even — a tie requires
the double to be an odd multiple of one twentieth times some power of
two, which only dyadic values such as `0.25` realise, and those `printf`
does round half-to-even. -/
def renderOneDecimal (v : ℚ) : String :=
  let t := roundTenthsHalfEven v.num (v.den : ℤ)
  toString (t / 10) ++ "." ++ toString (t % 10)

/-- `format_size_human_readable(value, binary)` with the default
`format='%.1f'`, for an integral byte count.  The float pipeline is
modelled exactly: `float(value)` is `fl` of the integer, the loop
compares that float to the integer `unit` exactly, `value * base`
rounds the exact product (`ratMulNat` then `fl`), `/ unit` converts the
integer `unit` to a float (`fl`) and rounds the exact quotient
(`ratDiv` then `fl`); `value.is_integer()` is the denominator-one test
on the resulting double, `'%d'` prints its integer value, and `'%.1f'`
is `renderOneDecimal`. -/
def format_size_human_readable (value : ℕ) (binary : Bool) : String :=
  let suffix := if binary then suffixesBinary else suffixesDecimal
  let base := if binary then 1024 else 1000
  let v0 : ℚ := fl (value : ℚ)
  let i := chooseIdx v0 base
  let s := suffix.getD i ""
  let unit := base ^ (i + 1)
  let v : ℚ := fl (ratDiv (fl (ratMulNat v0 base)) (fl ((unit : ℕ) : ℚ)))
  if v.den = 1 then toString v.num ++ " " ++ s
  else renderOneDecimal v ++ " " ++ s

/-- Sample tracked volume, as `create_volume("s", "qcow2")` would store
it for a pool whose directory is `/d`. -/
def volS : Vol :=
  { path := "/d/s", url := "file:/d/s", json := json_template "qcow2" "/d/s" }

/-- Sample inactive pool (freshly constructed, directory `/d`). -/
def samplePoolInactive : DirectoryPool :=
  { name := "p0", id := 0, config := { path := "/d" }, active := false, volumes := [] }

/-- Sample active pool with no tracked volume. -/
def samplePoolActive : DirectoryPool :=
  { name := "p1", id := 1, config := { path := "/d" }, active := true, volumes := [] }

/-- Sample active pool tracking the volume `s`. -/
def samplePoolWithS : DirectoryPool :=
  { samplePoolActive with volumes := [("s", volS)] }

theorem dlookup_eq_none_iff {α : Type} (n : String) (l : List (String × α)) :
    dlookup n l = none ↔ n ∉ l.map Prod.fst := by
  induction l with
  | nil => simp [dlookup]
  | cons kv rest ih =>
      obtain ⟨k, v⟩ := kv
      by_cases hk : k = n
      · subst hk; simp [dlookup]
      · have hnk : ¬ n = k := fun hh => hk hh.symm
        simp [dlookup, hk, hnk, ih]

theorem dlookup_isSome_iff_mem {α : Type} (n : String) (l : List (String × α)) :
    (dlookup n l).isSome = true ↔ n ∈ l.map Prod.fst := by
  constructor
  · intro hs
    by_contra hmem
    rw [← dlookup_eq_none_iff] at hmem
    rw [hmem] at hs
    simp at hs
  · intro hmem
    rcases h : dlookup n l with _ | v
    · rw [dlookup_eq_none_iff] at h; exact absurd hmem h
    · simp

theorem dictUpdate_of_not_mem (n : String) (f : Vol → Vol) (l : List (String × Vol))
    (h : dlookup n l = none) : dictUpdate n f l = l ++ [(n, f Vol.dflt)] := by
  induction l with
  | nil => simp [dictUpdate]
  | cons kv rest ih =>
      obtain ⟨k, v⟩ := kv
      by_cases hk : k = n
      · subst hk; simp [dlookup] at h
      · simp only [dlookup, if_neg hk] at h
        simp [dictUpdate, hk, ih h]

theorem dlookup_append_self (n : String) (l : List (String × Vol)) (v : Vol)
    (h : dlookup n l = none) : dlookup n (l ++ [(n, v)]) = some v := by
  induction l with
  | nil => simp [dlookup]
  | cons kv rest ih =>
      obtain ⟨k, w⟩ := kv
      by_cases hk : k = n
      · subst hk; simp [dlookup] at h
      · simp only [dlookup, if_neg hk] at h
        simp [dlookup, hk, ih h]

theorem dictUpdate_append_self (n : String) (f : Vol → Vol) (l : List (String × Vol))
    (v : Vol) (h : dlookup n l = none) :
    dictUpdate n f (l ++ [(n, v)]) = l ++ [(n, f v)] := by
  induction l with
  | nil => simp [dictUpdate]
  | cons kv rest ih =>
      obtain ⟨k, w⟩ := kv
      by_cases hk : k = n
      · subst hk; simp [dlookup] at h
      · simp only [dlookup, if_neg hk] at h
        simp [dictUpdate, hk, ih h]

theorem dictGet_of_tracked (n : String) (l : List (String × Vol)) (v : Vol)
    (h : dlookup n l = some v) : dictGet n l = (v, l) := by
  induction l with
  | nil => simp [dlookup] at h
  | cons kv rest ih =>
      obtain ⟨k, w⟩ := kv
      by_cases hk : k = n
      · subst hk
        have hw : w = v := by simpa [dlookup] using h
        subst hw
        simp [dictGet]
      · simp only [dlookup, if_neg hk] at h
        simp [dictGet, hk, ih h]

theorem countKey_eq_zero (n : String) (l : List (String × Vol))
    (h : dlookup n l = none) : countKey n l = 0 := by
  induction l with
  | nil => simp [countKey]
  | cons kv rest ih =>
      obtain ⟨k, v⟩ := kv
      by_cases hk : k = n
      · subst hk; simp [dlookup] at h
      · simp only [dlookup, if_neg hk] at h
        have hkb : (k == n) = false := by simpa using hk
        simpa [countKey, List.filter_cons, hkb] using ih h

theorem countKey_eq_one (n : String) (l : List (String × Vol)) (v : Vol)
    (hnd : (l.map Prod.fst).Nodup) (h : dlookup n l = some v) : countKey n l = 1 := by
  induction l with
  | nil => simp [dlookup] at h
  | cons kv rest ih =>
      obtain ⟨k, w⟩ := kv
      simp only [List.map_cons, List.nodup_cons] at hnd
      by_cases hk : k = n
      · subst hk
        have hz : dlookup k rest = none := by
          rw [dlookup_eq_none_iff]; exact hnd.1
        have hkb : (k == k) = true := by simp
        simpa [countKey, List.filter_cons, hkb] using countKey_eq_zero k rest hz
      · have hkb : (k == n) = false := by simpa using hk
        simp only [dlookup, if_neg hk] at h
        simpa [countKey, List.filter_cons, hkb] using ih hnd.2 h

theorem countKey_append (n : String) (l l' : List (String × Vol)) :
    countKey n (l ++ l') = countKey n l + countKey n l' := by
  simp [countKey, List.filter_append]

theorem dlookup_dictDelete_self (n : String) (l : List (String × Vol)) :
    dlookup n (dictDelete n l) = none := by
  induction l with
  | nil => simp [dictDelete, dlookup]
  | cons kv rest ih =>
      obtain ⟨k, v⟩ := kv
      by_cases hk : k = n
      · subst hk; simpa [dictDelete, List.filter_cons] using ih
      · simpa [dictDelete, List.filter_cons, hk, dlookup] using ih

theorem dlookup_dictDelete_other (n m : String) (l : List (String × Vol))
    (h : m ≠ n) : dlookup m (dictDelete n l) = dlookup m l := by
  induction l with
  | nil => simp [dictDelete]
  | cons kv rest ih =>
      obtain ⟨k, v⟩ := kv
      by_cases hk : k = n
      · subst hk
        have hkm : ¬ (k = m) := fun hh => h (hh.symm)
        simpa [dictDelete, List.filter_cons, dlookup, hkm] using ih
      · by_cases hkm : k = m
        · subst hkm; simp [dictDelete, List.filter_cons, hk, dlookup]
        · simpa [dictDelete, List.filter_cons, hk, hkm, dlookup] using ih

/-- C1: the claim states that a read-only query on an untracked name
never inserts an entry into `volumes`.  The code violates this:
`get_vol_info` reads `self.volumes[vol_name][0]` on the `defaultdict`,
which inserts the empty entry `['', '', '']` for the unknown name before
the not-found error is raised.  On the active pool `p1` with no tracked
volumes, querying `x` leaves `volumes` holding an entry for `x`. -/
theorem get_vol_info_inserts_untracked_entry :
    getVolInfo samplePoolActive [] "x" =
      ({ samplePoolActive with volumes := [("x", Vol.dflt)] },
        Except.error (PoolException.poolVolNotExist "p1" "x")) := rfl

/-- C2: the claim states that `create_volume` on an inactive pool raises
the inactive-pool error and returns no locator.  The code instead
computes and returns the locator without raising (and without
persisting): on the inactive pool `p0` with directory `/d`,
`create_volume("a", "qcow2")` returns `file:/d/a` and leaves the pool
unchanged. -/
theorem create_volume_inactive_returns_locator :
    createVolume samplePoolInactive [] "a" "qcow2" =
      ((samplePoolInactive, []), "file:/d/a") := rfl

/-- C3 counterexample: the claim asserts the vector
`1024` bytes binary yields `"1.0 KiB"`, but the code renders a bare
integer when the scaled value has no fractional part, giving `"1 KiB"`. -/
theorem format_size_1024_binary_bare_integer :
    format_size_human_readable 1024 true = "1 KiB" ∧
    format_size_human_readable 1024 true ≠ "1.0 KiB" := by
  exact ⟨by decide, by decide⟩

/-- C4 counterexample: the claim states that `pool_destroy` on an
active `DirectoryPool` sets `active` to false.  `DirectoryPool` does
not override `pool_destroy`, so the inherited abstract method raises
`NotImplementedError` instead of returning the deactivated pool. -/
theorem pool_destroy_not_deactivating :
    pool_destroy samplePoolWithS = Except.error PoolException.notImplemented ∧
    pool_destroy samplePoolWithS ≠
      Except.ok { samplePoolWithS with active := false } :=
  ⟨rfl, fun h => Except.noConfusion h⟩

/-- C4 (amended): calling `pool_destroy` on any `DirectoryPool` raises
`NotImplementedError` and changes nothing — the pool state (`active`,
`volumes`, `config`, `name`, `id`) is untouched, and no backing
directory or file is touched (the operation never reaches any state or
filesystem access, as its result type records). -/
theorem pool_destroy_raises_not_implemented (p : DirectoryPool) :
    pool_destroy p = Except.error PoolException.notImplemented := rfl

/-- C5: the claim states that `clone_volume(s, d)` on an active pool
duplicates `s`'s content into an independent volume registered under
`d`.  The code's body ends after the inactive-pool check: on the active
pool tracking `s` whose backing file `/d/s` exists, cloning to `d`
copies nothing, registers nothing, and leaves pool and filesystem
unchanged (`d` stays untracked). -/
theorem clone_volume_stub_noop :
    cloneVolume samplePoolWithS ["/d/s"] "s" "d" =
      Except.ok (samplePoolWithS, ["/d/s"]) ∧
    dlookup "d" samplePoolWithS.volumes = none := by
  exact ⟨rfl, by decide⟩

theorem createVolume_of_tracked (p : DirectoryPool) (fs : List String)
    (n f : String) (v : Vol) (hact : p.active = true)
    (hl : dlookup n p.volumes = some v) :
    createVolume p fs n f = ((p, fs), v.url) := by
  simp [createVolume, is_pool_active, is_volumes_existed, hact, hl]

theorem createVolume_of_untracked (p : DirectoryPool) (fs : List String)
    (n f : String) (hact : p.active = true)
    (hl : dlookup n p.volumes = none) :
    createVolume p fs n f =
      (({ p with volumes := p.volumes ++
            [(n, { path := formatVolPath p n, url := formatAsUrl p n,
                   json := formatAsJson (formatVolPath p n) f })] }, fs),
        formatAsUrl p n) := by
  obtain ⟨nm, i, cfg, act, vols⟩ := p
  replace hact : act = true := hact
  subst hact
  replace hl : dlookup n vols = none := hl
  simp [createVolume, is_pool_active, is_volumes_existed, hl,
    dictUpdate_of_not_mem n _ _ hl, dictUpdate_append_self, dlookup_append_self]

theorem getVolInfo_of_tracked (p : DirectoryPool) (fs : List String)
    (n : String) (v : Vol) (hl : dlookup n p.volumes = some v) :
    getVolInfo p fs n =
      (p, if v.path ∈ fs then Except.ok v.path
          else Except.error (PoolException.poolVolNotExist p.name n)) := by
  simp only [getVolInfo, dictGet_of_tracked n _ v hl]
  split <;> rfl

/-- C6: `delete_volume(n)` raises the inactive-pool error on an inactive
pool (checked before the tracking check, hence regardless of tracking);
on an active pool with `n` untracked it raises the not-found error
naming pool and volume; on an active pool with `n` tracked it removes
the backing file exactly when it exists, removes the tracked entry
regardless, leaves every other entry and every other file alone, and
leaves `n` untracked afterwards. -/
theorem delete_volume_spec (p : DirectoryPool) (fs : List String) (n : String) :
    (p.active = false →
      deleteVolume p fs n =
        Except.error (PoolException.directoryPoolInactive p.name "delete_volume")) ∧
    (p.active = true → dlookup n p.volumes = none →
      deleteVolume p fs n = Except.error (PoolException.poolVolNotExist p.name n)) ∧
    (∀ v, p.active = true → dlookup n p.volumes = some v →
      ∃ p' fs', deleteVolume p fs n = Except.ok (p', fs') ∧
        dlookup n p'.volumes = none ∧
        (∀ m, m ≠ n → dlookup m p'.volumes = dlookup m p.volumes) ∧
        (∀ q, q ∈ fs' ↔ (q ∈ fs ∧ q ≠ v.path)) ∧
        p'.name = p.name ∧ p'.id = p.id ∧ p'.config = p.config ∧
        p'.active = p.active) := by
  refine ⟨?_, ?_, ?_⟩
  · intro h
    simp [deleteVolume, is_pool_active, h]
  · intro h1 h2
    simp [deleteVolume, is_pool_active, h1, h2]
  · intro v h1 h2
    have heq : deleteVolume p fs n =
        Except.ok ({ p with volumes := dictDelete n p.volumes },
          if v.path ∈ fs then fs.filter (fun q => decide (q ≠ v.path)) else fs) := by
      simp [deleteVolume, is_pool_active, h1, h2]
    refine ⟨_, _, heq, dlookup_dictDelete_self n p.volumes,
      fun m hm => dlookup_dictDelete_other n m p.volumes hm, ?_, rfl, rfl, rfl, rfl⟩
    intro q
    by_cases hp : v.path ∈ fs
    · simp [hp, List.mem_filter]
    · simp only [if_neg hp]
      constructor
      · intro hq; exact ⟨hq, fun he => hp (he ▸ hq)⟩
      · exact fun hq => hq.1

/-- C6 witness: deleting the tracked volume `s` (backing file present)
from the sample active pool. -/
theorem delete_volume_spec_witness :
    ∃ p' fs', deleteVolume samplePoolWithS ["/d/s"] "s" = Except.ok (p', fs') ∧
      dlookup "s" p'.volumes = none ∧
      (∀ m, m ≠ "s" → dlookup m p'.volumes = dlookup m samplePoolWithS.volumes) ∧
      (∀ q, q ∈ fs' ↔ (q ∈ ["/d/s"] ∧ q ≠ volS.path)) ∧
      p'.name = samplePoolWithS.name ∧ p'.id = samplePoolWithS.id ∧
      p'.config = samplePoolWithS.config ∧ p'.active = samplePoolWithS.active :=
  (delete_volume_spec samplePoolWithS ["/d/s"] "s").2.2 volS rfl rfl

/-- C7: on an active pool, two successive `create_volume` calls for the
same name (with any formats) return the same result: the second call
returns the identical locator, changes no pool state (the entire result,
pool, filesystem and locator, coincides with the first call's), ignores
its format argument, and exactly one entry for the name is tracked. -/
theorem create_volume_idempotent (p : DirectoryPool) (fs : List String)
    (n f f' : String) (hact : p.active = true)
    (hnd : (p.volumes.map Prod.fst).Nodup) :
    createVolume ((createVolume p fs n f).1.1) ((createVolume p fs n f).1.2) n f' =
      createVolume p fs n f ∧
    countKey n ((createVolume p fs n f).1.1).volumes = 1 := by
  rcases hl : dlookup n p.volumes with _ | v
  · have h1 := createVolume_of_untracked p fs n f hact hl
    set e : Vol := { path := formatVolPath p n, url := formatAsUrl p n,
                     json := formatAsJson (formatVolPath p n) f } with he
    have hl2 : dlookup n (p.volumes ++ [(n, e)]) = some e :=
      dlookup_append_self n p.volumes e hl
    constructor
    · rw [h1]
      have h2 := createVolume_of_tracked
        { p with volumes := p.volumes ++ [(n, e)] } fs n f' e hact hl2
      rw [h2]
    · rw [h1]
      rw [countKey_append, countKey_eq_zero n p.volumes hl]
      simp [countKey]
  · have h1 := createVolume_of_tracked p fs n f v hact hl
    constructor
    · rw [h1]
      exact createVolume_of_tracked p fs n f' v hact hl
    · rw [h1]
      exact countKey_eq_one n p.volumes v hnd hl

/-- C7 witness: creating `a` twice as `qcow2` on the sample active pool. -/
theorem create_volume_idempotent_witness :
    createVolume ((createVolume samplePoolActive [] "a" "qcow2").1.1)
        ((createVolume samplePoolActive [] "a" "qcow2").1.2) "a" "qcow2" =
      createVolume samplePoolActive [] "a" "qcow2" ∧
    countKey "a" ((createVolume samplePoolActive [] "a" "qcow2").1.1).volumes = 1 :=
  create_volume_idempotent samplePoolActive [] "a" "qcow2" "qcow2" rfl
    (by exact List.nodup_nil)

/-- C8: on an active pool with configured directory `D`, creating an
untracked name `n` returns the locator `"file:" ++ D/n` (with `D/n` the
`os.path.join` of `D` and `n`) and persists under `n` the path `D/n`,
that locator, and the attach descriptor produced by instantiating the
driver-chain JSON template with the format and the path. -/
theorem create_volume_untracked_registers (p : DirectoryPool) (fs : List String)
    (n f : String) (hact : p.active = true)
    (hl : dlookup n p.volumes = none) :
    (createVolume p fs n f).2 = "file:" ++ joinPath p.config.path n ∧
    dlookup n ((createVolume p fs n f).1.1).volumes =
      some { path := joinPath p.config.path n,
             url := "file:" ++ joinPath p.config.path n,
             json := json_template f (joinPath p.config.path n) } := by
  have h1 := createVolume_of_untracked p fs n f hact hl
  rw [h1]
  exact ⟨rfl, dlookup_append_self n p.volumes _ hl⟩

/-- C8 witness: creating `a` as `qcow2` on the sample active pool with
directory `/d`. -/
theorem create_volume_untracked_registers_witness :
    (createVolume samplePoolActive [] "a" "qcow2").2 =
      "file:" ++ joinPath samplePoolActive.config.path "a" ∧
    dlookup "a" ((createVolume samplePoolActive [] "a" "qcow2").1.1).volumes =
      some { path := joinPath samplePoolActive.config.path "a",
             url := "file:" ++ joinPath samplePoolActive.config.path "a",
             json := json_template "qcow2" (joinPath samplePoolActive.config.path "a") } :=
  create_volume_untracked_registers samplePoolActive [] "a" "qcow2" rfl rfl

theorem poolListVolsGo_error_of_missing (p : DirectoryPool) (fs : List String) :
    ∀ ks : List String,
      (∀ k ∈ ks, (dlookup k p.volumes).isSome = true) →
      (∃ k ∈ ks, ∃ v, dlookup k p.volumes = some v ∧ v.path ∉ fs) →
      ∃ m, (poolListVolsGo fs p ks).2 =
        Except.error (PoolException.poolVolNotExist p.name m) := by
  intro ks
  induction ks with
  | nil => rintro _ ⟨k, hk, _⟩; exact absurd hk (List.not_mem_nil k)
  | cons k rest ih =>
      rintro htrk ⟨k', hk', v', hv', hmiss⟩
      have hks : (dlookup k p.volumes).isSome = true := htrk k (by simp)
      rcases hsome : dlookup k p.volumes with _ | vk
      · rw [hsome] at hks; simp at hks
      · have hgv := getVolInfo_of_tracked p fs k vk hsome
        by_cases hkfs : vk.path ∈ fs
        · have hrest : ∃ m ∈ rest, ∃ v, dlookup m p.volumes = some v ∧ v.path ∉ fs := by
            rcases List.mem_cons.mp hk' with he | hm
            · subst he
              rw [hsome] at hv'
              cases hv'
              exact absurd hkfs hmiss
            · exact ⟨k', hm, v', hv', hmiss⟩
          obtain ⟨m, hgo⟩ := ih (fun x hx => htrk x (List.mem_cons_of_mem k hx)) hrest
          refine ⟨m, ?_⟩
          simp only [poolListVolsGo, hgv, if_pos hkfs]
          rcases hgo2 : poolListVolsGo fs p rest with ⟨p'', res⟩
          rw [hgo2] at hgo
          simp only at hgo
          rw [hgo]
        · refine ⟨k, ?_⟩
          simp only [poolListVolsGo, hgv, if_neg hkfs]

/-- C10: `create_volume` performs no filesystem operation — it returns
the filesystem unchanged and touches only the in-memory `volumes`
mapping (name, id, config and the active flag are unchanged).
Consequently, right after `create_volume(n, f)` on an active pool,
while the file at the stored path does not exist, `get_vol_info(n)`
raises the not-found error for that pool and volume, and
`pool_list_vols` raises a not-found error for some tracked volume. -/
theorem create_volume_no_fs_effect (p : DirectoryPool) (fs : List String)
    (n f : String) (hact : p.active = true) :
    (createVolume p fs n f).1.2 = fs ∧
    ((createVolume p fs n f).1.1).name = p.name ∧
    ((createVolume p fs n f).1.1).id = p.id ∧
    ((createVolume p fs n f).1.1).config = p.config ∧
    ((createVolume p fs n f).1.1).active = p.active ∧
    (∀ v, dlookup n ((createVolume p fs n f).1.1).volumes = some v → v.path ∉ fs →
      (getVolInfo ((createVolume p fs n f).1.1) fs n).2 =
        Except.error (PoolException.poolVolNotExist p.name n) ∧
      ∃ m, (pool_list_vols ((createVolume p fs n f).1.1) fs).2 =
        Except.error (PoolException.poolVolNotExist p.name m)) := by
  have hmain : ∀ p1 : DirectoryPool, p1.name = p.name →
      (∀ v, dlookup n p1.volumes = some v → v.path ∉ fs →
        (getVolInfo p1 fs n).2 =
          Except.error (PoolException.poolVolNotExist p.name n) ∧
        ∃ m, (pool_list_vols p1 fs).2 =
          Except.error (PoolException.poolVolNotExist p.name m)) := by
    intro p1 hname v hv hmiss
    constructor
    · rw [getVolInfo_of_tracked p1 fs n v hv]
      simp [if_neg hmiss, hname]
    · have hmem : n ∈ p1.volumes.map Prod.fst :=
        (dlookup_isSome_iff_mem n p1.volumes).mp (by simp [hv])
      have htrk : ∀ k ∈ p1.volumes.map Prod.fst, (dlookup k p1.volumes).isSome = true :=
        fun k hk => (dlookup_isSome_iff_mem k p1.volumes).mpr hk
      obtain ⟨m, hm⟩ := poolListVolsGo_error_of_missing p1 fs
        (p1.volumes.map Prod.fst) htrk ⟨n, hmem, v, hv, hmiss⟩
      exact ⟨m, by rw [pool_list_vols, hm, hname]⟩
  obtain ⟨hfs, hname, hid, hcfg, hactive⟩ :
      (createVolume p fs n f).1.2 = fs ∧
      ((createVolume p fs n f).1.1).name = p.name ∧
      ((createVolume p fs n f).1.1).id = p.id ∧
      ((createVolume p fs n f).1.1).config = p.config ∧
      ((createVolume p fs n f).1.1).active = p.active := by
    rcases hl : dlookup n p.volumes with _ | v0
    · rw [createVolume_of_untracked p fs n f hact hl]
      exact ⟨rfl, rfl, rfl, rfl, rfl⟩
    · rw [createVolume_of_tracked p fs n f v0 hact hl]
      exact ⟨rfl, rfl, rfl, rfl, rfl⟩
  exact ⟨hfs, hname, hid, hcfg, hactive, hmain ((createVolume p fs n f).1.1) hname⟩

/-- C10 witness: after creating `a` on the sample active pool with an
empty filesystem, the filesystem is unchanged and volume introspection
of `a` raises the not-found error. -/
theorem create_volume_no_fs_effect_witness :
    (createVolume samplePoolActive [] "a" "q").1.2 = ([] : List String) ∧
    (getVolInfo ((createVolume samplePoolActive [] "a" "q").1.1) [] "a").2 =
      Except.error (PoolException.poolVolNotExist "p1" "a") := by
  have h := create_volume_no_fs_effect samplePoolActive [] "a" "q" rfl
  refine ⟨h.1, ?_⟩
  have h2 := h.2.2.2.2.2
    { path := "/d/a", url := "file:/d/a", json := json_template "q" "/d/a" }
    rfl (List.not_mem_nil _)
  exact h2.1

theorem nodup_all_eq_singleton {l : List String} {a : String}
    (hnd : l.Nodup) (hall : ∀ x ∈ l, x = a) (hmem : a ∈ l) : l = [a] := by
  cases l with
  | nil => exact absurd hmem (List.not_mem_nil a)
  | cons x xs =>
      have hx : x = a := hall x (by simp)
      subst hx
      cases xs with
      | nil => rfl
      | cons y ys =>
          have hy : y = x := hall y (by simp)
          rw [List.nodup_cons] at hnd
          exact absurd (by simp [hy]) hnd.1

theorem messageNamesPath (e : DirectoryPoolConfigErr) :
    messageNames (configErrorMessage e) "path" := by
  cases e with
  | missingPath =>
      exact ⟨"required field: ",
        "\nbut DirectoryPool missing 1 required positional argument: \x27path\x27", rfl⟩
  | unexpectedKeyword k =>
      exact ⟨"required field: ",
        "\nbut DirectoryPool got an unexpected keyword argument \x27" ++ k ++ "\x27", rfl⟩

theorem messageNames_unexpected (k : String) :
    messageNames (configErrorMessage (DirectoryPoolConfigErr.unexpectedKeyword k)) k :=
  ⟨"required field: path\nbut DirectoryPool got an unexpected keyword argument \x27",
    "\x27", rfl⟩

/-- C9: `DirectoryPool` construction succeeds exactly when the config
mapping's key set is exactly `path` (config keys are distinct, being a
dict); on failure an exception leaves no pool object (the result is an
error value) whose rendered message always names `path` and, for an
unexpected keyword, also names that offending key; the missing-path
error arises only when `path` is absent. -/
theorem directory_pool_construction_spec (name : String) (id : ℕ)
    (config : List (String × String)) (hnd : (config.map Prod.fst).Nodup) :
    ((∃ p, mkDirectoryPool name config id = Except.ok p) ↔
      config.map Prod.fst = ["path"]) ∧
    (config.map Prod.fst ≠ ["path"] →
      ∃ e, mkDirectoryPool name config id = Except.error e) ∧
    (∀ e, mkDirectoryPool name config id = Except.error e →
      messageNames (configErrorMessage e) "path" ∧
      (∀ k, e = DirectoryPoolConfigErr.unexpectedKeyword k →
        k ∈ config.map Prod.fst ∧ k ≠ "path" ∧
        messageNames (configErrorMessage e) k) ∧
      (e = DirectoryPoolConfigErr.missingPath →
        "path" ∉ config.map Prod.fst)) := by
  rcases hfind : config.find? (fun kv => !(kv.1 == "path")) with _ | kv
  · have hall : ∀ x ∈ config, x.1 = "path" := by
      intro x hx
      have := List.find?_eq_none.mp hfind x hx
      simpa using this
    rcases hlook : dlookup "path" config with _ | v
    · have hnp : "path" ∉ config.map Prod.fst :=
        (dlookup_eq_none_iff "path" config).mp hlook
      have hmk : mkDirectoryPool name config id =
          Except.error DirectoryPoolConfigErr.missingPath := by
        simp [mkDirectoryPool, parseConfig, hfind, hlook]
      refine ⟨?_, fun _ => ⟨_, hmk⟩, ?_⟩
      · constructor
        · rintro ⟨p, hp⟩; rw [hmk] at hp; exact absurd hp (by simp)
        · intro hkeys
          exact absurd (by rw [hkeys]; simp) hnp
      · intro e he
        rw [hmk] at he
        have he2 : DirectoryPoolConfigErr.missingPath = e := Except.error.inj he
        subst he2
        exact ⟨messageNamesPath _,
          fun k hk => DirectoryPoolConfigErr.noConfusion hk, fun _ => hnp⟩
    · have hmem : "path" ∈ config.map Prod.fst :=
        (dlookup_isSome_iff_mem "path" config).mp (by simp [hlook])
      have hkeys : config.map Prod.fst = ["path"] := by
        refine nodup_all_eq_singleton hnd ?_ hmem
        intro x hx
        obtain ⟨kv', hkv', hfst⟩ := List.mem_map.mp hx
        rw [← hfst]; exact hall kv' hkv'
      have hmk : mkDirectoryPool name config id = Except.ok
          { name := name, id := id, config := { path := v },
            active := false, volumes := [] } := by
        simp [mkDirectoryPool, parseConfig, hfind, hlook]
      refine ⟨⟨fun _ => hkeys, fun _ => ⟨_, hmk⟩⟩, fun hne => absurd hkeys hne, ?_⟩
      intro e he
      rw [hmk] at he
      exact absurd he (by simp)
  · have hpkv := List.find?_some hfind
    have hkne : kv.1 ≠ "path" := by simpa using hpkv
    have hkmem : kv.1 ∈ config.map Prod.fst :=
      List.mem_map.mpr ⟨kv, List.mem_of_find?_eq_some hfind, rfl⟩
    have hmk : mkDirectoryPool name config id =
        Except.error (DirectoryPoolConfigErr.unexpectedKeyword kv.1) := by
      simp [mkDirectoryPool, parseConfig, hfind]
    have hkeysne : config.map Prod.fst ≠ ["path"] := by
      intro hkeys
      rw [hkeys] at hkmem
      simp at hkmem
      exact hkne hkmem
    refine ⟨?_, fun _ => ⟨_, hmk⟩, ?_⟩
    · constructor
      · rintro ⟨p, hp⟩; rw [hmk] at hp; exact absurd hp (by simp)
      · intro hkeys; exact absurd hkeys hkeysne
    · intro e he
      rw [hmk] at he
      have he2 : DirectoryPoolConfigErr.unexpectedKeyword kv.1 = e :=
        Except.error.inj he
      subst he2
      refine ⟨messageNamesPath _, ?_,
        fun h => DirectoryPoolConfigErr.noConfusion h⟩
      intro k hk
      have hk2 : kv.1 = k := by injection hk
      subst hk2
      exact ⟨hkmem, hkne, messageNames_unexpected kv.1⟩

/-- C9 witness: constructing with the valid config succeeds. -/
theorem directory_pool_construction_spec_witness :
    (mkDirectoryPool "p1" [("path", "/tmp/xyz")] 7).isOk = true := by
  obtain ⟨p, hp⟩ :=
    ((directory_pool_construction_spec "p1" 7 [("path", "/tmp/xyz")]
      (by simp)).1).mpr rfl
  rw [hp]
  rfl

theorem chooseIdxAux_le (v0 : ℚ) (base : ℕ) (fuel : ℕ) :
    ∀ i, chooseIdxAux v0 base i fuel ≤ i + fuel := by
  induction fuel with
  | zero => intro i; simp [chooseIdxAux]
  | succ m ih =>
      intro i
      simp only [chooseIdxAux]
      by_cases hlt : v0 < ((base ^ (i + 1) : ℕ) : ℚ)
      · rw [if_pos hlt]; omega
      · rw [if_neg hlt]
        have := ih (i + 1)
        omega

theorem chooseIdxAux_bound (v0 : ℚ) (base : ℕ) (fuel : ℕ) :
    ∀ i, v0 < ((base ^ (i + fuel + 1) : ℕ) : ℚ) →
      v0 < ((base ^ (chooseIdxAux v0 base i fuel + 1) : ℕ) : ℚ) := by
  induction fuel with
  | zero => intro i h; simpa [chooseIdxAux] using h
  | succ m ih =>
      intro i h
      simp only [chooseIdxAux]
      by_cases hlt : v0 < ((base ^ (i + 1) : ℕ) : ℚ)
      · rw [if_pos hlt]; exact hlt
      · rw [if_neg hlt]
        refine ih (i + 1) ?_
        have e : i + 1 + m + 1 = i + (m + 1) + 1 := by omega
        rw [e]; exact h

theorem chooseIdxAux_min (v0 : ℚ) (base : ℕ) (fuel : ℕ) :
    ∀ i, (∀ j, j < i → ((base ^ (j + 1) : ℕ) : ℚ) ≤ v0) →
      ∀ j, j < chooseIdxAux v0 base i fuel → ((base ^ (j + 1) : ℕ) : ℚ) ≤ v0 := by
  induction fuel with
  | zero =>
      intro i h j hj
      exact h j (by simpa [chooseIdxAux] using hj)
  | succ m ih =>
      intro i h j hj
      simp only [chooseIdxAux] at hj
      by_cases hlt : v0 < ((base ^ (i + 1) : ℕ) : ℚ)
      · rw [if_pos hlt] at hj
        exact h j hj
      · rw [if_neg hlt] at hj
        refine ih (i + 1) ?_ j hj
        intro j' hj'
        rcases Nat.lt_succ_iff_lt_or_eq.mp hj' with h1 | h1
        · exact h j' h1
        · subst h1; exact le_of_not_lt hlt

theorem natLog2Aux_le (fuel : ℕ) : ∀ n k, n < 2 ^ (k + 1) → natLog2Aux n fuel ≤ k := by
  induction fuel with
  | zero => intro n k _; simp [natLog2Aux]
  | succ m ih =>
      intro n k h
      simp only [natLog2Aux]
      by_cases h2 : 2 ≤ n
      · rw [if_pos h2]
        have hk : 1 ≤ k := by
          by_contra hk0
          have hk1 : k = 0 := by omega
          subst hk1
          have : n < 2 := by simpa using h
          omega
        have hn2 : n / 2 < 2 ^ k := by
          have h2k : n < 2 ^ k * 2 := by
            rw [← pow_succ]
            exact h
          omega
        have h3 := ih (n / 2) (k - 1) (by
          have hke : k - 1 + 1 = k := Nat.succ_pred_eq_of_pos hk
          rw [hke]; exact hn2)
        omega
      · rw [if_neg h2]; omega

theorem roundHalfEvenInt_one (x : ℤ) : roundHalfEvenInt x 1 = x := by
  simp only [roundHalfEvenInt]
  have h1 : Int.ediv x 1 = x := Int.ediv_one x
  rw [h1]
  simp

/-- Conversion to binary64 is exact on naturals with at most 53
significant bits, in particular on every `float(value)` the formatter's
claims quantify over. -/
theorem fl_natCast_small (n : ℕ) (hn : n < 2 ^ 53) : fl ((n : ℕ) : ℚ) = ((n : ℕ) : ℚ) := by
  rcases Nat.eq_zero_or_pos n with rfl | hpos
  · simp [fl]
  · have hnum : ((n : ℚ)).num = (n : ℤ) := Rat.num_natCast n
    have hden : ((n : ℚ)).den = 1 := Rat.den_natCast n
    have hnz : ¬ ((n : ℚ)).num = 0 := by
      rw [hnum]
      exact_mod_cast Nat.pos_iff_ne_zero.mp hpos
    have hnpos : 0 < ((n : ℚ)).num := by
      rw [hnum]; exact_mod_cast hpos
    rw [fl, if_neg hnz, if_pos hnpos, hnum, hden]
    rw [show ((n : ℤ)).toNat = n by simp]
    have hlog : natLog2 n ≤ 52 := natLog2Aux_le n n 52 hn
    have h52 : (natLog2 n : ℤ) ≤ 52 := by exact_mod_cast hlog
    have hL : ilog2nat n 1 ≤ 52 := by
      have hlz : (natLog2 1 : ℤ) = 0 := by decide
      simp only [ilog2nat, hlz, sub_zero]
      split <;> omega
    simp only [flMag]
    set e : ℤ := ilog2nat n 1 - 52 with hedef
    have he : e ≤ 0 := by omega
    simp only [if_pos he]
    rw [show ((1 * 1 : ℕ) : ℤ) = 1 by norm_num]
    rw [roundHalfEvenInt_one]
    by_cases h0 : 0 ≤ e
    · have he0 : e = 0 := le_antisymm he h0
      rw [if_pos h0, he0]
      simp [Rat.mkRat_one]
    · rw [if_neg h0]
      rw [Rat.mkRat_eq_div]
      push_cast
      rw [mul_div_assoc, div_self (by positivity), mul_one]

theorem ratMulNat_eq_mul (q : ℚ) (n : ℕ) : ratMulNat q n = q * (n : ℚ) := by
  rw [ratMulNat, Rat.mkRat_eq_div]
  push_cast
  conv_rhs => rw [← Rat.num_div_den q]
  rw [div_mul_eq_mul_div]

theorem ratDiv_eq_div (a b : ℚ) : ratDiv a b = a / b := by
  have had : ((a.den : ℚ)) ≠ 0 := Nat.cast_ne_zero.mpr (Rat.den_ne_zero a)
  have hbd : ((b.den : ℚ)) ≠ 0 := Nat.cast_ne_zero.mpr (Rat.den_ne_zero b)
  rcases lt_trichotomy b.num 0 with hneg | hzero | hpos
  · rw [ratDiv, if_neg (not_le.mpr hneg)]
    have htn : (((-b.num).toNat : ℕ) : ℚ) = ((-b.num : ℤ) : ℚ) := by
      exact_mod_cast Int.toNat_of_nonneg (by omega)
    have hbn : ((b.num : ℚ)) ≠ 0 := by
      exact_mod_cast (by omega : b.num ≠ (0 : ℤ))
    rw [Rat.mkRat_eq_div]
    push_cast
    rw [htn]
    push_cast
    conv_rhs => rw [← Rat.num_div_den a, ← Rat.num_div_den b]
    field_simp
  · have hb : b = 0 := Rat.num_eq_zero.mp hzero
    subst hb
    simp [ratDiv]
  · rw [ratDiv, if_pos (le_of_lt hpos)]
    have htn : ((b.num.toNat : ℕ) : ℚ) = ((b.num : ℤ) : ℚ) := by
      exact_mod_cast Int.toNat_of_nonneg (le_of_lt hpos)
    have hbn : ((b.num : ℚ)) ≠ 0 := by
      exact_mod_cast (ne_of_gt hpos)
    rw [Rat.mkRat_eq_div]
    push_cast
    rw [htn]
    conv_rhs => rw [← Rat.num_div_den a, ← Rat.num_div_den b]
    field_simp

/-- Fidelity check against CPython: at 2150 bytes decimal the double
`2150000.0 / 1000000.0` is the binary64 value just below `2.15`, so the
program prints `2.1 kB` (not `2.2 kB`). -/
theorem format_size_2150_decimal :
    format_size_human_readable 2150 false = "2.1 kB" := by decide

/-- Fidelity check against CPython: at 1150 bytes decimal the scaled
double lies just below `1.15`, so the program prints `1.1 kB`. -/
theorem format_size_1150_decimal :
    format_size_human_readable 1150 false = "1.1 kB" := by decide

/-- C3 (amended): the size formatter meets the corrected vectors —
999 decimal gives `999 B`, 1024 binary gives `1 KiB`, 2048 binary gives
`2 KiB`, 1000 decimal gives `1 kB` (bare integers, because the scaled
values are integral) — and in general, for any byte count below `2 ^ 53`
(where `float(value)` is exact), the loop picks the smallest unit for
which the value scaled into that unit is below the base (1000 decimal,
1024 binary), and the output renders the scaled double — the float
quotient `fl (fl (value * base) / fl unit)` the program computes — as a
bare integer exactly when it has no fractional part and with one
decimal place otherwise, followed by the unit suffix. -/
theorem format_size_human_readable_spec :
    (format_size_human_readable 999 false = "999 B" ∧
     format_size_human_readable 1024 true = "1 KiB" ∧
     format_size_human_readable 2048 true = "2 KiB" ∧
     format_size_human_readable 1000 false = "1 kB") ∧
    (∀ (value : ℕ) (binary : Bool),
      value < 2 ^ 53 →
      ∃ i, i ≤ 8 ∧
        value < (if binary then 1024 else 1000 : ℕ) ^ (i + 1) ∧
        (∀ j, j < i → (if binary then 1024 else 1000 : ℕ) ^ (j + 1) ≤ value) ∧
        ((fl (fl ((value : ℚ) * (((if binary then 1024 else 1000 : ℕ)) : ℚ)) /
            fl ((((if binary then 1024 else 1000 : ℕ) ^ (i + 1) : ℕ)) : ℚ))).den = 1 →
          format_size_human_readable value binary =
            toString (fl (fl ((value : ℚ) * (((if binary then 1024 else 1000 : ℕ)) : ℚ)) /
              fl ((((if binary then 1024 else 1000 : ℕ) ^ (i + 1) : ℕ)) : ℚ))).num ++
              " " ++ (if binary then suffixesBinary else suffixesDecimal).getD i "") ∧
        ((fl (fl ((value : ℚ) * (((if binary then 1024 else 1000 : ℕ)) : ℚ)) /
            fl ((((if binary then 1024 else 1000 : ℕ) ^ (i + 1) : ℕ)) : ℚ))).den ≠ 1 →
          format_size_human_readable value binary =
            renderOneDecimal
              (fl (fl ((value : ℚ) * (((if binary then 1024 else 1000 : ℕ)) : ℚ)) /
                fl ((((if binary then 1024 else 1000 : ℕ) ^ (i + 1) : ℕ)) : ℚ))) ++
              " " ++ (if binary then suffixesBinary else suffixesDecimal).getD i "")) := by
  constructor
  · exact ⟨by decide, by decide, by decide, by decide⟩
  · intro value binary hval
    set B : ℕ := (if binary then 1024 else 1000 : ℕ) with hB
    have hv0 : fl ((value : ℕ) : ℚ) = ((value : ℕ) : ℚ) := fl_natCast_small value hval
    have hbig : value < B ^ 9 := by
      have h2 : 2 ^ 53 ≤ B ^ 9 := by
        rw [hB]; cases binary <;> norm_num
      omega
    have hcast9 : ((value : ℕ) : ℚ) < ((B ^ (0 + 8 + 1) : ℕ) : ℚ) := by
      exact_mod_cast hbig
    refine ⟨chooseIdx ((value : ℕ) : ℚ) B, ?_, ?_, ?_, ?_, ?_⟩
    · have := chooseIdxAux_le ((value : ℕ) : ℚ) B 8 0
      simpa [chooseIdx] using this
    · have h := chooseIdxAux_bound ((value : ℕ) : ℚ) B 8 0 hcast9
      rw [chooseIdx]
      exact_mod_cast h
    · intro j hj
      have h := chooseIdxAux_min ((value : ℕ) : ℚ) B 8 0
        (fun j' hj' => absurd hj' (Nat.not_lt_zero j')) j (by simpa [chooseIdx] using hj)
      exact_mod_cast h
    · intro hden
      rw [format_size_human_readable, ← hB, hv0, ratMulNat_eq_mul, ratDiv_eq_div,
        if_pos hden]
    · intro hden
      rw [format_size_human_readable, ← hB, hv0, ratMulNat_eq_mul, ratDiv_eq_div,
        if_neg hden]

/-- C3 witness: 1536 bytes in binary units scale to the double
three-halves exactly, whose denominator is two, so the one-decimal
rendering branch applies. -/
theorem format_size_human_readable_spec_witness :
    ∃ i, i ≤ 8 ∧
      1536 < (1024 : ℕ) ^ (i + 1) ∧
      (∀ j, j < i → (1024 : ℕ) ^ (j + 1) ≤ 1536) ∧
      ((fl (fl (((1536 : ℕ) : ℚ) * ((1024 : ℕ) : ℚ)) /
          fl ((((1024 : ℕ) ^ (i + 1) : ℕ)) : ℚ))).den = 1 →
        format_size_human_readable 1536 true =
          toString (fl (fl (((1536 : ℕ) : ℚ) * ((1024 : ℕ) : ℚ)) /
            fl ((((1024 : ℕ) ^ (i + 1) : ℕ)) : ℚ))).num ++
            " " ++ suffixesBinary.getD i "") ∧
      ((fl (fl (((1536 : ℕ) : ℚ) * ((1024 : ℕ) : ℚ)) /
          fl ((((1024 : ℕ) ^ (i + 1) : ℕ)) : ℚ))).den ≠ 1 →
        format_size_human_readable 1536 true =
          renderOneDecimal (fl (fl (((1536 : ℕ) : ℚ) * ((1024 : ℕ) : ℚ)) /
            fl ((((1024 : ℕ) ^ (i + 1) : ℕ)) : ℚ))) ++
            " " ++ suffixesBinary.getD i "") :=
  format_size_human_readable_spec.2 1536 true (by decide)

end QemuStoragePool
